import Mathlib

/-!
Verification of the smart_document classification-and-extraction pipeline.

This file shallowly embeds the decision logic of the repository:
  * `src/src/model/types.py`                       (`DocumentType`)
  * `src/src/model/classifier/llm_classifier.py`   (`LLMClassifier.predict`)
  * `src/src/model/extractor/entity_extractor.py`  (`BaseEntityExtractor.extract`,
    `_create_metadata`, `_calculate_confidence_score`)
  * `src/src/model/extractor/invoice_extractor.py`, `contract_extractor.py`,
    `report_extractor.py` (field lists, `_extract_rule_based_entities`,
    `_extract_llm_entities`)
  * `src/src/model/extractor/extractor_factory.py` (`ExtractorFactory.create_extractor`)
  * `src/src/model/analyzer.py`                    (`DocumentAnalyzer.analyze`,
    `analyze_batch`)
  * `src/src/model/utils/document_store.py`        (`DocumentStore.store_analysis`,
    `get_analysis`)
  * `src/model/extractor/base.py`                  (`BaseExtractor.validate_metadata`)

Python dictionaries are modelled as insertion-ordered association lists;
JSON-decodable Python values are modelled by `PyVal`.  External effects
(OpenAI completion calls, PDF text extraction, the clock, `uuid.uuid4`) are
inputs of the embedded functions; an operation that can raise is modelled
with `Except String`.
-/

/-- JSON-decodable Python values (`None`, `bool`, numbers, `str`, `list`,
`dict`).  These are the values that can appear in rule-based results, in
`json.loads` output and in stored analysis records. -/
inductive PyVal where
  | none : PyVal
  | bool : Bool → PyVal
  | num : ℚ → PyVal
  | str : String → PyVal
  | list : List PyVal → PyVal
  | dict : List (String × PyVal) → PyVal

/-- Python `is None` test on a `PyVal`. -/
def pyIsNone : PyVal → Bool
  | .none => true
  | _ => false

/-- Python truthiness (`if v:`) of a JSON-decodable value. -/
def pyTruthy : PyVal → Bool
  | .none => false
  | .bool b => b
  | .num q => decide (q ≠ 0)
  | .str s => decide (s ≠ "")
  | .list l => !l.isEmpty
  | .dict d => !d.isEmpty

/-- Key lookup in an insertion-ordered association list (first match), the
model of Python `d[k]` / `d.get(k)` on dictionaries (which never hold
duplicate keys). -/
def dlookup {α : Type _} : List (String × α) → String → Option α
  | [], _ => Option.none
  | p :: d, k => if p.1 = k then some p.2 else dlookup d k

/-- Python `d[k] = v` on an insertion-ordered association list: overwrite the
value in place if the key is present, append the pair otherwise. -/
def dictInsert {α : Type _} : List (String × α) → String → α → List (String × α)
  | [], k, v => [(k, v)]
  | p :: d, k, v => if p.1 = k then (k, v) :: d else p :: dictInsert d k v

/-- The keys of an association list are pairwise distinct (invariant of every
association list that models a Python dictionary). -/
def keysNodup {α : Type _} (d : List (String × α)) : Prop :=
  (d.map Prod.fst).Nodup

/-- Python `dict(...)` built from a pair list by repeated insertion (a later
pair with the same key overwrites the earlier value in place). -/
def pyDict {α : Type _} (l : List (String × α)) : List (String × α) :=
  l.foldl (fun d p => dictInsert d p.1 p.2) []

/-- Python `{**a, **b}` / `a.update(b)`: insert every pair of `b` into `a` in
order, values of `b` overwriting values of `a` on key collision. -/
def pyMerge {α : Type _} (a b : List (String × α)) : List (String × α) :=
  b.foldl (fun d p => dictInsert d p.1 p.2) a

/-- The value held at key `k` after starting from `d` and overwriting with
`p.2` for every pair `p` of `l` whose key equals `k`, in list order (so the
last matching pair wins). -/
def lastD {α : Type _} (l : List (String × α)) (k : String) (d : α) : α :=
  l.foldl (fun acc p => if p.1 = k then p.2 else acc) d

/-- Python `type_confidences[doc_type] = confidence` guarded by
`if doc_type in type_confidences:`: overwrite the value in place when the key
is present, leave the dictionary unchanged otherwise
(`llm_classifier.py:129-131`). -/
def updateIfPresent {α : Type _} (d : List (String × α)) (k : String) (v : α) :
    List (String × α) :=
  if d.any (fun q => q.1 = k) then
    d.map (fun q => if q.1 = k then (q.1, v) else q)
  else d

/-- Python `max(items, key=lambda x: x[1])`: scan left to right keeping the
current item unless a strictly larger second component appears, so the first
maximal item wins; `max` of an empty sequence raises, modelled by `none`. -/
def pyMaxBySnd : List (String × ℚ) → Option (String × ℚ)
  | [] => Option.none
  | x :: xs => some (xs.foldl (fun acc y => if acc.2 < y.2 then y else acc) x)

/-- `DocumentType` enumeration, in source declaration order
(`src/src/model/types.py:12-17`). -/
inductive DocumentType where
  | CONTRACT : DocumentType
  | INVOICE : DocumentType
  | EARNINGS_REPORT : DocumentType
  | UNKNOWN : DocumentType
deriving DecidableEq

/-- The `value` of each `DocumentType` member (`types.py:14-17`). -/
def DocumentType.value : DocumentType → String
  | .CONTRACT => "Contract"
  | .INVOICE => "Invoice"
  | .EARNINGS_REPORT => "Financial"
  | .UNKNOWN => "Unknown"

/-- Iteration order of `for doc_type in DocumentType`, which is the
declaration order of the enum members. -/
def documentTypeList : List DocumentType :=
  [.CONTRACT, .INVOICE, .EARNINGS_REPORT, .UNKNOWN]

/-- Python `DocumentType(value)`: the enum member whose value is the given
string, `none` when no member matches (in which case Python raises
`ValueError`). -/
def documentTypeOfValue (s : String) : Option DocumentType :=
  if s = "Contract" then some .CONTRACT
  else if s = "Invoice" then some .INVOICE
  else if s = "Financial" then some .EARNINGS_REPORT
  else if s = "Unknown" then some .UNKNOWN
  else Option.none

/-- `ClassificationResult` (`types.py:55-64`).  The annotation in the source
says `Dict[DocumentType, float]` but `LLMClassifier.predict` actually stores
string keys (`doc_type.value`), so the distribution is keyed by strings. -/
structure ClassificationResult where
  document_type : DocumentType
  confidence_score : List (String × ℚ)
  raw_response : String

/-- `LLMClassifier.predict` (`llm_classifier.py:99-136`) from the completion
response onward.  Inputs: `mexp` stands for `math.exp` (applied to each
returned log-probability), `content` is `response.choices[0].message.content`
and `topLogprobs` is the ranked `(token, logprob)` list
`response.choices[0].logprobs.content[0].top_logprobs`.  The prompt-building
and network steps, which do not affect the returned value given the response,
are not modelled.  The two `getD` defaults are unreachable: the dictionary
passed to `max` always has the four category entries, and its keys are always
enum values. -/
def predict (mexp : ℚ → ℚ) (content : String) (topLogprobs : List (String × ℚ)) :
    ClassificationResult :=
  let token_confidences := pyDict (topLogprobs.map (fun p => (p.1, mexp p.2)))
  let init := documentTypeList.map (fun dt => (dt.value, (0 : ℚ)))
  let type_confidences :=
    token_confidences.foldl (fun d p => updateIfPresent d p.1 p.2) init
  let best := (pyMaxBySnd type_confidences).getD ("Unknown", 0)
  { document_type := (documentTypeOfValue best.1).getD .UNKNOWN
    confidence_score := type_confidences
    raw_response := content.trim }

/-- The probability the classifier associates to a category label: start from
0.0 and overwrite with `exp(log_probability)` for each ranked token whose
text exactly equals the label, in ranked order. -/
def observedProb (mexp : ℚ → ℚ) (topLogprobs : List (String × ℚ)) (label : String) : ℚ :=
  lastD (topLogprobs.map (fun p => (p.1, mexp p.2))) label 0

/-- The pair of statically-declared field-name lists of a concrete entity
extractor, together with its document type
(`BaseEntityExtractor._setup_extraction_fields` instances). -/
structure ExtractorSpec where
  document_type : DocumentType
  rule_based_fields : List String
  llm_based_fields : List String

/-- Field lists of `InvoiceExtractor` (`invoice_extractor.py:31-50`). -/
def invoiceSpec : ExtractorSpec :=
  { document_type := .INVOICE
    rule_based_fields :=
      ["vendor_name", "total_amount", "currency", "invoice_date", "due_date"]
    llm_based_fields :=
      ["line_items", "vendor_details", "payment_terms", "invoice_number"] }

/-- Field lists of `ContractExtractor` (`contract_extractor.py:28-47`). -/
def contractSpec : ExtractorSpec :=
  { document_type := .CONTRACT
    rule_based_fields :=
      ["parties", "effective_date", "termination_date", "contract_type"]
    llm_based_fields :=
      ["key_terms", "obligations", "payment_terms", "contract_value", "governing_law"] }

/-- Field lists of `ReportExtractor` (`report_extractor.py:30-49`). -/
def reportSpec : ExtractorSpec :=
  { document_type := .EARNINGS_REPORT
    rule_based_fields :=
      ["reporting_period", "report_date", "company_name", "fiscal_year"]
    llm_based_fields :=
      ["key_metrics", "executive_summary", "financial_highlights", "risk_factors", "outlook"] }

/-- `InvoiceExtractor._extract_rule_based_entities`
(`invoice_extractor.py:52-147`): every pattern block is commented out, so the
function returns the empty dictionary for every input text. -/
def invoice_extract_rule_based_entities (_text : String) : List (String × PyVal) := []

/-- `ContractExtractor._extract_rule_based_entities`
(`contract_extractor.py:49-60`): `return {}` for every input text. -/
def contract_extract_rule_based_entities (_text : String) : List (String × PyVal) := []

/-- `ReportExtractor._extract_rule_based_entities`
(`report_extractor.py:51-64`): returns the empty dictionary for every input
text. -/
def report_extract_rule_based_entities (_text : String) : List (String × PyVal) := []

/-- `_extract_llm_entities` of the three concrete extractors
(`invoice_extractor.py:149-183`, `contract_extractor.py:62-102`,
`report_extractor.py:66-100`), which share the same logic: the completion
call plus `json.loads` is the `modelPass` input (`Except.error` covers a
raised completion error, a JSON parse error, or a parsed non-object value,
whose merge would raise inside the same `try`).  On success the parsed object
is merged over the rule results (`{**rule_based_results, **extracted_entities}`);
on failure the exception is printed — not recorded — and the rule results
alone are returned (`entities = {**rule_based_results}` /
`rule_based_results.copy()`). -/
def extract_llm_entities (rule_based_results : List (String × PyVal))
    (modelPass : Except String (List (String × PyVal))) : List (String × PyVal) :=
  match modelPass with
  | .ok extracted_entities => pyMerge rule_based_results extracted_entities
  | .error _ => rule_based_results

/-- Python `field in extracted_entities and extracted_entities[field] is not
None` (`entity_extractor.py:225`). -/
def presentNonNull (extracted_entities : List (String × PyVal)) (field : String) : Bool :=
  match dlookup extracted_entities field with
  | some v => !pyIsNone v
  | Option.none => false

/-- `BaseEntityExtractor._calculate_confidence_score`
(`entity_extractor.py:210-227`): the number of fields of
`rule_based_fields + llm_based_fields` that are present with a non-`None`
value, divided by the total number of declared fields; 0.0 when no field is
declared. -/
def calculate_confidence_score (spec : ExtractorSpec)
    (extracted_entities : List (String × PyVal)) : ℚ :=
  let total_fields := spec.rule_based_fields.length + spec.llm_based_fields.length
  if total_fields = 0 then 0
  else
    let extracted_count :=
      ((spec.rule_based_fields ++ spec.llm_based_fields).filter
        (presentNonNull extracted_entities)).length
    (extracted_count : ℚ) / (total_fields : ℚ)

/-- Python `extracted_entities.get(k)` followed by an `is not None` use: a
key that is absent and a key stored with value `None` are indistinguishable,
both yield `none`. -/
def pyGet (d : List (String × PyVal)) (k : String) : Option PyVal :=
  match dlookup d k with
  | some v => if pyIsNone v then Option.none else some v
  | Option.none => Option.none

/-- `ExtractedMetadata` (`types.py:30-52`) restricted to the fields the
pipeline reads; `extraction_date` (`datetime.now()` at creation) carries no
decision logic and is not modelled. -/
structure ExtractedMetadata where
  document_type : DocumentType
  confidence_score : ℚ
  document_date : Option PyVal
  total_amount : Option PyVal
  currency : Option PyVal
  parties : PyVal
  additional_fields : List (String × PyVal)

/-- `BaseEntityExtractor._create_metadata` (`entity_extractor.py:177-208`). -/
def create_metadata (spec : ExtractorSpec)
    (extracted_entities : List (String × PyVal)) : ExtractedMetadata :=
  { document_type := spec.document_type
    confidence_score := calculate_confidence_score spec extracted_entities
    document_date := pyGet extracted_entities "document_date"
    total_amount := pyGet extracted_entities "total_amount"
    currency := pyGet extracted_entities "currency"
    parties := (dlookup extracted_entities "parties").getD (.list [])
    additional_fields := extracted_entities }

/-- The metadata built on the error path of `extract`
(`entity_extractor.py:145-149`): `ExtractedMetadata(document_type,
confidence_score=0.0, extraction_date=now)` whose `__post_init__` fills
`parties = []` and `additional_fields = {}`. -/
def emptyMetadata (spec : ExtractorSpec) : ExtractedMetadata :=
  { document_type := spec.document_type
    confidence_score := 0
    document_date := Option.none
    total_amount := Option.none
    currency := Option.none
    parties := .list []
    additional_fields := [] }

/-- Python `v < 0` on a JSON-decodable value: defined for numbers and bools
(`False < 0` is `False`, `True < 0` is `False`), a `TypeError` otherwise. -/
def pyLtZero : PyVal → Except String Bool
  | .num q => .ok (decide (q < 0))
  | .bool _ => .ok false
  | v => .error ("TypeError: '<' not supported between instances of '" ++
      (match v with
       | .str _ => "str"
       | .list _ => "list"
       | .dict _ => "dict"
       | _ => "NoneType") ++ "' and 'int'")

/-- `BaseExtractor.validate_metadata` (`src/model/extractor/base.py:70-93`,
the base class `entity_extractor.py` imports).  The checks run in source
order: confidence range, then `total_amount < 0`, then
`document_date > datetime.now()`.  A non-`None` `document_date` coming out of
extraction is always a JSON value, never a `datetime`, so the comparison with
`datetime.now()` always raises `TypeError`; similarly `total_amount < 0`
raises on non-numeric values.  A raise is modelled with `Except.error`. -/
def validate_metadata (m : ExtractedMetadata) : Except String (List String) :=
  let e1 : List String :=
    if m.confidence_score < 0 ∨ 1 < m.confidence_score then
      ["Confidence score must be between 0 and 1"]
    else []
  match m.total_amount with
  | some v =>
    match pyLtZero v with
    | .error t => .error t
    | .ok b =>
      let e2 := e1 ++ (if b then ["Total amount cannot be negative"] else [])
      match m.document_date with
      | some _ => .error "TypeError: '>' not supported between instances of 'str' and 'datetime.datetime'"
      | Option.none => .ok e2
  | Option.none =>
    match m.document_date with
    | some _ => .error "TypeError: '>' not supported between instances of 'str' and 'datetime.datetime'"
    | Option.none => .ok e1

/-- `ExtractionResult` (`types.py:67-77`) restricted to the fields the
pipeline reads; `processing_time` (wall-clock seconds) is not modelled. -/
structure ExtractionResult where
  metadata : ExtractedMetadata
  extraction_method : String
  errors : List String

/-- `BaseEntityExtractor.extract` (`entity_extractor.py:98-156`).
`textRes` is the outcome of `_extract_text_from_pdf` (which re-raises any
failure as `Exception("Failed to extract text from PDF: ...")`), `ruleFn` is
the concrete `_extract_rule_based_entities` and `modelPass` the outcome of
the completion-plus-parse step inside `_extract_llm_entities`.  Any exception
escaping the body is caught by the outer handler, which appends
`"Extraction failed: ..."` and returns an empty-metadata result. -/
def extract (spec : ExtractorSpec) (ruleFn : String → List (String × PyVal))
    (textRes : Except String String)
    (modelPass : Except String (List (String × PyVal))) : ExtractionResult :=
  match textRes with
  | .error e =>
    { metadata := emptyMetadata spec
      extraction_method := "hybrid_entity_extraction"
      errors := ["Extraction failed: Failed to extract text from PDF: " ++ e] }
  | .ok text_content =>
    let rule_based_results := ruleFn text_content
    let combined_results := extract_llm_entities rule_based_results modelPass
    let metadata := create_metadata spec combined_results
    match validate_metadata metadata with
    | .ok validation_errors =>
      { metadata := metadata
        extraction_method := "hybrid_entity_extraction"
        errors := validation_errors }
    | .error e =>
      { metadata := emptyMetadata spec
        extraction_method := "hybrid_entity_extraction"
        errors := ["Extraction failed: " ++ e] }

/-- The concrete extractor classes the factory can instantiate. -/
inductive ExtractorChoice where
  | invoice : ExtractorChoice
  | contract : ExtractorChoice
  | report : ExtractorChoice
deriving DecidableEq

/-- The field-list pair of each concrete extractor class. -/
def specOf : ExtractorChoice → ExtractorSpec
  | .invoice => invoiceSpec
  | .contract => contractSpec
  | .report => reportSpec

/-- The `_extract_rule_based_entities` implementation of each concrete
extractor class. -/
def ruleFnOf : ExtractorChoice → (String → List (String × PyVal))
  | .invoice => invoice_extract_rule_based_entities
  | .contract => contract_extract_rule_based_entities
  | .report => report_extract_rule_based_entities

/-- `ExtractorFactory.create_extractor` (`extractor_factory.py:21-52`):
dispatch on the document type; any value other than the three supported ones
raises `ValueError(f"Unsupported document type: {document_type}")`. -/
def create_extractor : DocumentType → Except String ExtractorChoice
  | .INVOICE => .ok .invoice
  | .CONTRACT => .ok .contract
  | .EARNINGS_REPORT => .ok .report
  | .UNKNOWN => .error "Unsupported document type: DocumentType.UNKNOWN"

/-- Python `Path(p).name`: the final path component. -/
def pathName (p : String) : String :=
  (p.splitOn "/").getLastD ""

/-- Truthiness of an optional value obtained via `.get`:
`None` (absent) is falsy, otherwise Python truthiness of the value. -/
def optTruthy : Option PyVal → Bool
  | some v => pyTruthy v
  | Option.none => false

/-- Assembly of `result["metadata"]` in `DocumentAnalyzer.analyze`
(`analyzer.py:97-115`): start from `{}`, `update` with
`additional_fields` when truthy, then re-insert `document_date` (via
`.isoformat()`, which raises `AttributeError` on the JSON values extraction
produces), `total_amount`, `currency` and `parties` when each is truthy. -/
def assembleResultMetadata (m : ExtractedMetadata) :
    Except String (List (String × PyVal)) :=
  let d0 : List (String × PyVal) := []
  let d1 := if !m.additional_fields.isEmpty then pyMerge d0 m.additional_fields else d0
  if optTruthy m.document_date then
    .error "AttributeError: 'str' object has no attribute 'isoformat'"
  else
    let d2 := if optTruthy m.total_amount then
        dictInsert d1 "total_amount" (m.total_amount.getD .none) else d1
    let d3 := if optTruthy m.currency then
        dictInsert d2 "currency" (m.currency.getD .none) else d2
    let d4 := if pyTruthy m.parties then
        dictInsert d3 "parties" m.parties else d3
    .ok d4

/-- The dictionary `DocumentAnalyzer.analyze` returns (`analyzer.py:88-125`),
flattened: `classification_type` and `classification_confidence` are the
`classification` sub-dictionary, `extraction_method` and `errors` the
`processing_info` sub-dictionary (`processing_time` is wall-clock and not
modelled). -/
structure AnalyzeOk where
  document_id : String
  filename : String
  classification_type : String
  classification_confidence : ℚ
  metadata : List (String × PyVal)
  extraction_method : String
  errors : List String

/-- The collaborators `DocumentAnalyzer` consumes, as capabilities keyed by
the document path: file existence, the classifier outcome (`Except.error`
models a raised classification error), PDF text extraction and the
model-pass outcome of entity extraction.  `genId` and `genErrId` supply the
`uuid.uuid4()` draws of `analyze` and of the batch error records. -/
structure AnalyzerEnv where
  fileExists : String → Bool
  classify : String → Except String ClassificationResult
  pdfText : String → Except String String
  modelPass : String → Except String (List (String × PyVal))
  genId : Nat → String
  genErrId : Nat → String

/-- `DocumentAnalyzer.analyze` (`analyzer.py:55-125`): existence check,
classification, extractor selection, extraction, result assembly.  `gid` is
the `uuid.uuid4()` document id.  A raise anywhere (missing file,
classification error, unsupported category, metadata re-assembly) is
`Except.error`; extraction errors are absorbed into the result. -/
def analyze (env : AnalyzerEnv) (gid : String) (path : String) :
    Except String AnalyzeOk :=
  if env.fileExists path then
    match env.classify path with
    | .error e => .error e
    | .ok classification_result =>
      match create_extractor classification_result.document_type with
      | .error e => .error e
      | .ok choice =>
        let extraction_result :=
          extract (specOf choice) (ruleFnOf choice) (env.pdfText path)
            (env.modelPass path)
        match assembleResultMetadata extraction_result.metadata with
        | .error e => .error e
        | .ok md =>
          .ok { document_id := gid
                filename := pathName path
                classification_type :=
                  classification_result.document_type.value.toLower
                classification_confidence :=
                  (dlookup classification_result.confidence_score
                    classification_result.document_type.value).getD 0
                metadata := md
                extraction_method := extraction_result.extraction_method
                errors := extraction_result.errors }
  else .error ("Document not found: " ++ path)

/-- One slot of the `analyze_batch` result list: either the analysis
dictionary or the error record
`{document_id, filename, error, classification: None, metadata: {}}`
(`analyzer.py:146-152`). -/
inductive BatchSlot where
  | ok : AnalyzeOk → BatchSlot
  | err : (document_id : String) → (filename : String) → (error : String) →
      (classification : Option (String × ℚ)) →
      (metadata : List (String × PyVal)) → BatchSlot

/-- The slot `analyze_batch` produces for the document at index `n`: the
analysis result on success, otherwise the error record with a fresh id, the
file name, the exception text, `classification: None` and empty
`metadata`. -/
def batchSlot (env : AnalyzerEnv) (n : Nat) (p : String) : BatchSlot :=
  match analyze env (env.genId n) p with
  | .ok r => .ok r
  | .error e => .err (env.genErrId n) (pathName p) e Option.none []

/-- The loop of `DocumentAnalyzer.analyze_batch` (`analyzer.py:137-154`),
carrying the index of the current document. -/
def analyzeBatchAux (env : AnalyzerEnv) : Nat → List String → List BatchSlot
  | _, [] => []
  | n, p :: ps => batchSlot env n p :: analyzeBatchAux env (n + 1) ps

/-- `DocumentAnalyzer.analyze_batch` (`analyzer.py:127-154`): iterate the
documents in order, isolating each document's failure into its own slot. -/
def analyze_batch (env : AnalyzerEnv) (document_paths : List String) :
    List BatchSlot :=
  analyzeBatchAux env 0 document_paths

/-- The document store state: the JSON files under `storage_dir`, keyed by
document id (file `{id}.json` holds the record). -/
structure StoreState where
  entries : List (String × List (String × PyVal))

/-- A freshly initialised store over an empty directory. -/
def emptyStore : StoreState := { entries := [] }

/-- `DocumentStore.store_analysis` (`document_store.py:32-63`).  `freshId`
supplies the `uuid.uuid4()` draw used when the caller passes no id and `now`
the `datetime.utcnow().isoformat()` timestamp.  The function mutates the
caller's record in place (`analysis_result["document_id"] = ...`,
`analysis_result["stored_at"] = ...`) and then writes that same record under
`{id}.json`; the returned triple is (returned id, the caller's record after
the call, the new store state). -/
def store_analysis (st : StoreState) (analysis_result : List (String × PyVal))
    (document_id : Option String) (freshId : String) (now : String) :
    String × List (String × PyVal) × StoreState :=
  let id := document_id.getD freshId
  let r1 := dictInsert analysis_result "document_id" (.str id)
  let r2 := dictInsert r1 "stored_at" (.str now)
  (id, r2, { entries := dictInsert st.entries id r2 })

/-- `DocumentStore.get_analysis` (`document_store.py:65-91`): return the
record stored under `{document_id}.json`, or `None` when the file does not
exist. -/
def get_analysis (st : StoreState) (document_id : String) :
    Option (List (String × PyVal)) :=
  dlookup st.entries document_id

theorem dlookup_nil {α : Type _} (k : String) : dlookup ([] : List (String × α)) k = Option.none := rfl

theorem dlookup_cons {α : Type _} (p : String × α) (d : List (String × α)) (k : String) :
    dlookup (p :: d) k = if p.1 = k then some p.2 else dlookup d k := rfl

theorem dictInsert_nil {α : Type _} (k : String) (v : α) :
    dictInsert ([] : List (String × α)) k v = [(k, v)] := rfl

theorem dictInsert_cons {α : Type _} (p : String × α) (d : List (String × α)) (k : String) (v : α) :
    dictInsert (p :: d) k v = if p.1 = k then (k, v) :: d else p :: dictInsert d k v := rfl

theorem dlookup_dictInsert {α : Type _} (a : List (String × α)) (k' k : String) (v : α) :
    dlookup (dictInsert a k' v) k = if k' = k then some v else dlookup a k := by
  induction a with
  | nil =>
    by_cases hk : k' = k <;> simp [dictInsert_nil, dlookup_cons, dlookup_nil, hk]
  | cons p d ih =>
    by_cases hp : p.1 = k'
    · rw [dictInsert_cons, if_pos hp]
      by_cases hk : k' = k
      · rw [dlookup_cons, if_pos hk, if_pos hk]
      · rw [dlookup_cons, if_neg hk, if_neg hk, dlookup_cons,
          if_neg (fun hpk => hk (hp ▸ hpk))]
    · rw [dictInsert_cons, if_neg hp, dlookup_cons]
      by_cases hpk : p.1 = k
      · have hk : ¬ k' = k := fun hk => hp (hpk.trans hk.symm)
        rw [if_pos hpk, if_neg hk, dlookup_cons, if_pos hpk]
      · rw [if_neg hpk, ih]
        by_cases hk : k' = k
        · rw [if_pos hk, if_pos hk]
        · rw [if_neg hk, if_neg hk, dlookup_cons, if_neg hpk]

theorem dlookup_eq_none_of_not_mem {α : Type _} (a : List (String × α)) (k : String)
    (h : k ∉ a.map Prod.fst) : dlookup a k = Option.none := by
  induction a with
  | nil => rfl
  | cons p d ih =>
    rw [List.map_cons, List.mem_cons, not_or] at h
    rw [dlookup_cons, if_neg (fun hp : p.1 = k => h.1 hp.symm)]
    exact ih h.2

theorem lastD_nil {α : Type _} (k : String) (d : α) :
    lastD ([] : List (String × α)) k d = d := rfl

theorem lastD_cons {α : Type _} (p : String × α) (l : List (String × α)) (k : String) (d : α) :
    lastD (p :: l) k d = lastD l k (if p.1 = k then p.2 else d) := rfl

theorem lastD_of_not_mem {α : Type _} (l : List (String × α)) (k : String) (d : α)
    (h : k ∉ l.map Prod.fst) : lastD l k d = d := by
  induction l generalizing d with
  | nil => rfl
  | cons p t ih =>
    rw [List.map_cons, List.mem_cons, not_or] at h
    rw [lastD_cons, if_neg (fun hp : p.1 = k => h.1 hp.symm)]
    exact ih d h.2

theorem mem_keys_dictInsert {α : Type _} (a : List (String × α)) (k : String) (v : α)
    (x : String) :
    x ∈ (dictInsert a k v).map Prod.fst ↔ x = k ∨ x ∈ a.map Prod.fst := by
  induction a with
  | nil => simp [dictInsert_nil]
  | cons p d ih =>
    by_cases hp : p.1 = k
    · rw [dictInsert_cons, if_pos hp]
      simp only [List.map_cons, List.mem_cons, hp]
      tauto
    · rw [dictInsert_cons, if_neg hp]
      simp only [List.map_cons, List.mem_cons, ih]
      tauto

theorem keysNodup_dictInsert {α : Type _} (a : List (String × α)) (k : String) (v : α)
    (h : keysNodup a) : keysNodup (dictInsert a k v) := by
  induction a with
  | nil => simp [dictInsert_nil, keysNodup]
  | cons p d ih =>
    rw [keysNodup, List.map_cons, List.nodup_cons] at h
    by_cases hp : p.1 = k
    · rw [keysNodup, dictInsert_cons, if_pos hp, List.map_cons, List.nodup_cons]
      exact ⟨by rw [← hp]; exact h.1, h.2⟩
    · rw [keysNodup, dictInsert_cons, if_neg hp, List.map_cons, List.nodup_cons]
      constructor
      · rw [mem_keys_dictInsert]
        rintro (rfl | hm)
        · exact hp rfl
        · exact h.1 hm
      · exact ih h.2

theorem lastD_dictInsert {α : Type _} (a : List (String × α)) (k' k : String) (v : α) (d : α)
    (h : keysNodup a) :
    lastD (dictInsert a k' v) k d = if k' = k then v else lastD a k d := by
  induction a generalizing d with
  | nil =>
    by_cases hk : k' = k <;>
      simp [dictInsert_nil, lastD_cons, lastD_nil, hk]
  | cons p t ih =>
    rw [keysNodup, List.map_cons, List.nodup_cons] at h
    by_cases hp : p.1 = k'
    · rw [dictInsert_cons, if_pos hp]
      by_cases hk : k' = k
      · rw [lastD_cons, if_pos hk, if_pos hk]
        exact lastD_of_not_mem t k v (by rw [← hk, ← hp]; exact h.1)
      · rw [lastD_cons, if_neg hk, if_neg hk, lastD_cons,
          if_neg (fun hpk => hk (hp ▸ hpk))]
    · rw [dictInsert_cons, if_neg hp, lastD_cons, ih _ h.2, lastD_cons]

theorem keysNodup_nil {α : Type _} : keysNodup ([] : List (String × α)) := List.nodup_nil

theorem lastD_foldl_dictInsert {α : Type _} (l : List (String × α)) (a : List (String × α))
    (k : String) (d : α) (h : keysNodup a) :
    lastD (l.foldl (fun acc p => dictInsert acc p.1 p.2) a) k d = lastD l k (lastD a k d) := by
  induction l generalizing a with
  | nil => rfl
  | cons p t ih =>
    rw [List.foldl_cons, ih (dictInsert a p.1 p.2) (keysNodup_dictInsert a p.1 p.2 h),
      lastD_dictInsert a p.1 k p.2 d h, lastD_cons]

theorem lastD_pyDict {α : Type _} (l : List (String × α)) (k : String) (d : α) :
    lastD (pyDict l) k d = lastD l k d :=
  lastD_foldl_dictInsert l [] k d keysNodup_nil

theorem foldl_updateIfPresent {α : Type _} (u d : List (String × α)) :
    u.foldl (fun acc p => updateIfPresent acc p.1 p.2) d =
      d.map (fun q => (q.1, lastD u q.1 q.2)) := by
  induction u generalizing d with
  | nil => simp [lastD_nil]
  | cons p t ih =>
    rw [List.foldl_cons, ih]
    unfold updateIfPresent
    by_cases h : d.any (fun q => q.1 = p.1)
    · rw [if_pos h, List.map_map]
      refine List.map_congr_left (fun q _ => ?_)
      simp only [Function.comp_apply]
      by_cases hq : q.1 = p.1
      · rw [if_pos hq, lastD_cons, if_pos hq.symm]
      · rw [if_neg hq, lastD_cons, if_neg (fun hpq => hq hpq.symm)]
    · rw [if_neg h]
      refine List.map_congr_left (fun q hqmem => ?_)
      simp only [List.any_eq_true, decide_eq_true_eq, not_exists, not_and] at h
      rw [lastD_cons, if_neg (fun hpq : p.1 = q.1 => (h q hqmem) hpq.symm)]

theorem pyMaxBySnd_foldl_spec (x : String × ℚ) (xs : List (String × ℚ)) :
    xs.foldl (fun acc y => if acc.2 < y.2 then y else acc) x ∈ x :: xs ∧
      ∀ p ∈ x :: xs, p.2 ≤ (xs.foldl (fun acc y => if acc.2 < y.2 then y else acc) x).2 := by
  induction xs generalizing x with
  | nil =>
    refine ⟨List.mem_singleton.mpr rfl, fun p hp => ?_⟩
    rw [List.mem_singleton] at hp
    rw [hp]
    exact le_rfl
  | cons y t ih =>
    rw [List.foldl_cons]
    obtain ⟨ihmem, ihbound⟩ := ih (if x.2 < y.2 then y else x)
    constructor
    · rcases List.mem_cons.mp ihmem with hm | hm
      · by_cases hxy : x.2 < y.2
        · rw [hm, if_pos hxy]; exact List.mem_cons_of_mem _ (List.mem_cons_self _ _)
        · rw [hm, if_neg hxy]; exact List.mem_cons_self _ _
      · exact List.mem_cons_of_mem _ (List.mem_cons_of_mem _ hm)
    · intro p hp
      have hstep : (if x.2 < y.2 then y else x).2 ≤
          (t.foldl (fun acc z => if acc.2 < z.2 then z else acc)
            (if x.2 < y.2 then y else x)).2 :=
        ihbound _ (List.mem_cons_self _ _)
      rcases List.mem_cons.mp hp with rfl | hp'
      · refine le_trans ?_ hstep
        by_cases hxy : p.2 < y.2
        · rw [if_pos hxy]; exact le_of_lt hxy
        · rw [if_neg hxy]
      · rcases List.mem_cons.mp hp' with rfl | hp''
        · refine le_trans ?_ hstep
          by_cases hxy : x.2 < p.2
          · rw [if_pos hxy]
          · rw [if_neg hxy]; exact le_of_not_lt hxy
        · exact ihbound _ (List.mem_cons_of_mem _ hp'')

theorem dictInsert_of_not_mem {α : Type _} (a : List (String × α)) (k : String) (v : α)
    (h : k ∉ a.map Prod.fst) : dictInsert a k v = a ++ [(k, v)] := by
  induction a with
  | nil => rfl
  | cons p d ih =>
    rw [List.map_cons, List.mem_cons, not_or] at h
    rw [dictInsert_cons, if_neg (fun hp : p.1 = k => h.1 hp.symm), List.cons_append,
      ih h.2]

theorem dlookup_pyMerge {α : Type _} (b : List (String × α)) :
    ∀ (a : List (String × α)) (k : String), keysNodup b →
      dlookup (pyMerge a b) k =
        (match dlookup b k with
         | some v => some v
         | Option.none => dlookup a k) := by
  induction b with
  | nil => intro a k _; rfl
  | cons p t ih =>
    intro a k hb
    rw [keysNodup, List.map_cons, List.nodup_cons] at hb
    have hstep : pyMerge a (p :: t) = pyMerge (dictInsert a p.1 p.2) t := rfl
    rw [hstep, ih (dictInsert a p.1 p.2) k hb.2, dlookup_cons]
    by_cases hpk : p.1 = k
    · rw [if_pos hpk,
        dlookup_eq_none_of_not_mem t k (by rw [← hpk]; exact hb.1),
        dlookup_dictInsert, if_pos hpk]
    · rw [if_neg hpk]
      cases hdt : dlookup t k with
      | none => rw [dlookup_dictInsert, if_neg hpk]
      | some v => rfl

theorem pyMerge_eq_append {α : Type _} (b : List (String × α)) :
    ∀ a : List (String × α), keysNodup b →
      (∀ x ∈ b.map Prod.fst, x ∉ a.map Prod.fst) → pyMerge a b = a ++ b := by
  induction b with
  | nil => intro a _ _; exact (List.append_nil a).symm
  | cons p t ih =>
    intro a hb hdisj
    rw [keysNodup, List.map_cons, List.nodup_cons] at hb
    have hstep : pyMerge a (p :: t) = pyMerge (dictInsert a p.1 p.2) t := rfl
    have hpa : p.1 ∉ a.map Prod.fst :=
      hdisj p.1 (by rw [List.map_cons]; exact List.mem_cons_self _ _)
    rw [hstep, dictInsert_of_not_mem a p.1 p.2 hpa,
      ih (a ++ [(p.1, p.2)]) hb.2 ?_, List.append_assoc]
    · rfl
    · intro x hx
      rw [List.map_append, List.mem_append, not_or]
      refine ⟨hdisj x (by rw [List.map_cons]; exact List.mem_cons_of_mem _ hx), ?_⟩
      intro hxm
      rw [List.map_singleton, List.mem_singleton] at hxm
      exact hb.1 (hxm ▸ hx)

theorem pyMerge_nil_left {α : Type _} (b : List (String × α)) (hb : keysNodup b) :
    pyMerge [] b = b := by
  rw [pyMerge_eq_append b [] hb (fun x _ hx => by simp at hx), List.nil_append]

theorem predict_confidence_eq (mexp : ℚ → ℚ) (content : String)
    (topLogprobs : List (String × ℚ)) :
    (predict mexp content topLogprobs).confidence_score =
      documentTypeList.map
        (fun dt => (dt.value, observedProb mexp topLogprobs dt.value)) := by
  show (pyDict (topLogprobs.map (fun p => (p.1, mexp p.2)))).foldl
      (fun d p => updateIfPresent d p.1 p.2)
      (documentTypeList.map (fun dt => (dt.value, (0 : ℚ)))) = _
  rw [foldl_updateIfPresent, List.map_map]
  refine List.map_congr_left (fun dt _ => ?_)
  simp only [Function.comp_apply]
  rw [lastD_pyDict]
  rfl

theorem pyMaxBySnd_spec (x : String × ℚ) (xs : List (String × ℚ)) :
    ∃ r, pyMaxBySnd (x :: xs) = some r ∧ r ∈ x :: xs ∧ ∀ p ∈ x :: xs, p.2 ≤ r.2 :=
  ⟨_, rfl, (pyMaxBySnd_foldl_spec x xs).1, (pyMaxBySnd_foldl_spec x xs).2⟩

theorem predict_argmax_spec (mexp : ℚ → ℚ) (content : String)
    (topLogprobs : List (String × ℚ)) :
    ∃ m : ℚ,
      ((predict mexp content topLogprobs).document_type.value, m) ∈
        (predict mexp content topLogprobs).confidence_score ∧
      ∀ p ∈ (predict mexp content topLogprobs).confidence_score, p.2 ≤ m := by
  have hdist := predict_confidence_eq mexp content topLogprobs
  simp only [documentTypeList, List.map_cons, List.map_nil, DocumentType.value] at hdist
  obtain ⟨r, hmax, hmem, hbound⟩ :=
    pyMaxBySnd_spec ("Contract", observedProb mexp topLogprobs "Contract")
      [("Invoice", observedProb mexp topLogprobs "Invoice"),
       ("Financial", observedProb mexp topLogprobs "Financial"),
       ("Unknown", observedProb mexp topLogprobs "Unknown")]
  have hty : (predict mexp content topLogprobs).document_type =
      (documentTypeOfValue
        (((pyMaxBySnd ((predict mexp content topLogprobs).confidence_score)).getD
          ("Unknown", 0)).1)).getD DocumentType.UNKNOWN := rfl
  rw [hdist, hmax] at hty
  simp only [Option.getD_some] at hty
  refine ⟨r.2, ?_, ?_⟩
  · rw [hdist, hty]
    simp only [List.mem_cons, List.not_mem_nil, or_false] at hmem
    rcases hmem with hr | hr | hr | hr <;>
      · rw [hr]
        simp [documentTypeOfValue, DocumentType.value]
  · intro p hp
    rw [hdist] at hp
    exact hbound p hp

/-- C1: for every completion response carrying a ranked token/log-probability
list, `LLMClassifier.predict` returns a distribution with an entry for every
`DocumentType` member (in declaration order), each initialised to 0.0 and
overwritten with `exp(log_probability)` for each ranked token whose text
exactly equals the category's label; the returned category is a key of
maximal value in that distribution, and it is computed from the distribution
alone — the raw completion token does not influence it. -/
theorem C1_distribution_built_and_argmax (mexp : ℚ → ℚ) (content : String)
    (topLogprobs : List (String × ℚ)) :
    (predict mexp content topLogprobs).confidence_score =
        documentTypeList.map
          (fun dt => (dt.value, observedProb mexp topLogprobs dt.value))
      ∧ (∃ m : ℚ,
          ((predict mexp content topLogprobs).document_type.value, m) ∈
            (predict mexp content topLogprobs).confidence_score ∧
          ∀ p ∈ (predict mexp content topLogprobs).confidence_score, p.2 ≤ m)
      ∧ ∀ content' : String,
          (predict mexp content topLogprobs).document_type =
            (predict mexp content' topLogprobs).document_type :=
  ⟨predict_confidence_eq mexp content topLogprobs,
   predict_argmax_spec mexp content topLogprobs,
   fun _ => rfl⟩

theorem C1_witness :
    (predict (fun q => q) "Invoice" [("Invoice", 1)]).confidence_score =
      documentTypeList.map
        (fun dt => (dt.value, observedProb (fun q => q) [("Invoice", (1 : ℚ))] dt.value)) :=
  (C1_distribution_built_and_argmax (fun q => q) "Invoice" [("Invoice", 1)]).1

/-- C6: when no ranked token matches any category label, `predict` returns
the all-zero distribution and `DocumentType.CONTRACT`, the first-declared
member of the enumeration (Python `max` keeps the first item on ties),
without raising. -/
theorem C6_no_match_first_declared (mexp : ℚ → ℚ) (content : String)
    (topLogprobs : List (String × ℚ))
    (h : ∀ p ∈ topLogprobs, ∀ dt : DocumentType, p.1 ≠ dt.value) :
    (predict mexp content topLogprobs).confidence_score =
        documentTypeList.map (fun dt => (dt.value, (0 : ℚ)))
      ∧ (predict mexp content topLogprobs).document_type = DocumentType.CONTRACT
      ∧ documentTypeList.head? = some DocumentType.CONTRACT := by
  have hdist : (predict mexp content topLogprobs).confidence_score =
      documentTypeList.map (fun dt => (dt.value, (0 : ℚ))) := by
    rw [predict_confidence_eq]
    refine List.map_congr_left (fun dt _ => ?_)
    have hz : observedProb mexp topLogprobs dt.value = 0 := by
      show lastD (topLogprobs.map (fun p => (p.1, mexp p.2))) dt.value 0 = 0
      refine lastD_of_not_mem _ _ _ ?_
      intro hmem
      rw [List.map_map] at hmem
      obtain ⟨p, hp, hpeq⟩ := List.mem_map.mp hmem
      exact h p hp dt hpeq
    rw [hz]
  have hty : (predict mexp content topLogprobs).document_type =
      (documentTypeOfValue
        (((pyMaxBySnd ((predict mexp content topLogprobs).confidence_score)).getD
          ("Unknown", 0)).1)).getD DocumentType.UNKNOWN := rfl
  rw [hdist] at hty
  exact ⟨hdist, hty.trans (by decide), rfl⟩

theorem C6_witness :
    (∀ p ∈ [("Foo", (-2 : ℚ))], ∀ dt : DocumentType, p.1 ≠ dt.value) ∧
      (predict (fun q => q) "Foo" [("Foo", -2)]).document_type =
        DocumentType.CONTRACT := by
  have h : ∀ p ∈ [("Foo", (-2 : ℚ))], ∀ dt : DocumentType, p.1 ≠ dt.value := by
    intro p hp dt
    rw [List.mem_singleton] at hp
    subst hp
    cases dt <;> decide
  exact ⟨h, (C6_no_match_first_declared (fun q => q) "Foo" [("Foo", -2)] h).2.1⟩

theorem confidence_formula (spec : ExtractorSpec) (ents : List (String × PyVal)) :
    calculate_confidence_score spec ents =
      ((((spec.rule_based_fields ++ spec.llm_based_fields).filter
          (presentNonNull ents)).length : ℚ) /
        (((spec.rule_based_fields ++ spec.llm_based_fields).length : ℚ))) := by
  unfold calculate_confidence_score
  by_cases h : spec.rule_based_fields.length + spec.llm_based_fields.length = 0
  · rw [if_pos h]
    have hnil : spec.rule_based_fields ++ spec.llm_based_fields = [] := by
      rw [← List.length_eq_zero, List.length_append]
      exact h
    rw [hnil]
    simp
  · rw [if_neg h, List.length_append]

theorem presentNonNull_nil (field : String) : presentNonNull [] field = false := rfl

theorem extract_metadata_cases (spec : ExtractorSpec)
    (ruleFn : String → List (String × PyVal)) (textRes : Except String String)
    (modelPass : Except String (List (String × PyVal))) :
    (extract spec ruleFn textRes modelPass).metadata = emptyMetadata spec ∨
      ∃ ents, (extract spec ruleFn textRes modelPass).metadata =
        create_metadata spec ents := by
  cases textRes with
  | error e => exact Or.inl rfl
  | ok t =>
    cases hv : validate_metadata
        (create_metadata spec (extract_llm_entities (ruleFn t) modelPass)) with
    | ok v =>
      refine Or.inr ⟨extract_llm_entities (ruleFn t) modelPass, ?_⟩
      unfold extract
      simp only [hv]
    | error e =>
      refine Or.inl ?_
      unfold extract
      simp only [hv]

theorem metadata_confidence_formula (spec : ExtractorSpec) (m : ExtractedMetadata)
    (hm : m = emptyMetadata spec ∨ ∃ ents, m = create_metadata spec ents) :
    m.confidence_score =
      ((((spec.rule_based_fields ++ spec.llm_based_fields).filter
          (presentNonNull m.additional_fields)).length : ℚ) /
        (((spec.rule_based_fields ++ spec.llm_based_fields).length : ℚ))) := by
  rcases hm with rfl | ⟨ents, rfl⟩
  · show (0 : ℚ) = _
    have hfilter : (spec.rule_based_fields ++ spec.llm_based_fields).filter
        (presentNonNull (emptyMetadata spec).additional_fields) = [] := by
      refine List.filter_eq_nil_iff.mpr (fun f _ => ?_)
      show ¬ presentNonNull [] f = true
      rw [presentNonNull_nil]
      exact Bool.false_ne_true
    rw [hfilter]
    simp
  · show calculate_confidence_score spec ents = _
    exact confidence_formula spec ents

/-- C3: for every extraction outcome, `confidence_score` equals the number of
expected fields (the concatenation — under the stated `Nodup` hypothesis, the
union — of the extractor's rule-based and model-based field lists fixed at
construction) that are present with a non-null value in the outcome's fields,
divided by the number of expected fields; it is exactly 0.0 when that union
is empty, and exactly 1.0 when the union is non-empty and every expected
field is present and non-null. -/
theorem C3_confidence_invariant (spec : ExtractorSpec)
    (ruleFn : String → List (String × PyVal)) (textRes : Except String String)
    (modelPass : Except String (List (String × PyVal)))
    (hnd : (spec.rule_based_fields ++ spec.llm_based_fields).Nodup) :
    ((extract spec ruleFn textRes modelPass).metadata.confidence_score =
        ((((spec.rule_based_fields ++ spec.llm_based_fields).filter
            (presentNonNull
              (extract spec ruleFn textRes modelPass).metadata.additional_fields)).length : ℚ) /
          (((spec.rule_based_fields ++ spec.llm_based_fields).length : ℚ))))
      ∧ (spec.rule_based_fields ++ spec.llm_based_fields = [] →
          (extract spec ruleFn textRes modelPass).metadata.confidence_score = 0)
      ∧ ((spec.rule_based_fields ++ spec.llm_based_fields ≠ [] ∧
          ∀ field ∈ spec.rule_based_fields ++ spec.llm_based_fields,
            presentNonNull
              (extract spec ruleFn textRes modelPass).metadata.additional_fields field
              = true) →
          (extract spec ruleFn textRes modelPass).metadata.confidence_score = 1) := by
  have hform := metadata_confidence_formula spec
    (extract spec ruleFn textRes modelPass).metadata
    (extract_metadata_cases spec ruleFn textRes modelPass)
  refine ⟨hform, ?_, ?_⟩
  · intro hnil
    rw [hform, hnil]
    simp
  · rintro ⟨hne, hall⟩
    rw [hform, List.filter_eq_self.mpr hall]
    have hlen : ((spec.rule_based_fields ++ spec.llm_based_fields).length : ℚ) ≠ 0 :=
      Nat.cast_ne_zero.mpr (fun h0 => hne (List.length_eq_zero.mp h0))
    exact div_self hlen

theorem C3_witness :
    (invoiceSpec.rule_based_fields ++ invoiceSpec.llm_based_fields).Nodup ∧
      (extract invoiceSpec invoice_extract_rule_based_entities
          (.ok "invoice text") (.error "bad json")).metadata.confidence_score =
        ((((invoiceSpec.rule_based_fields ++ invoiceSpec.llm_based_fields).filter
            (presentNonNull
              (extract invoiceSpec invoice_extract_rule_based_entities
                (.ok "invoice text") (.error "bad json")).metadata.additional_fields)).length : ℚ) /
          (((invoiceSpec.rule_based_fields ++ invoiceSpec.llm_based_fields).length : ℚ))) := by
  have hnd : (invoiceSpec.rule_based_fields ++ invoiceSpec.llm_based_fields).Nodup := by
    decide
  exact ⟨hnd, (C3_confidence_invariant invoiceSpec invoice_extract_rule_based_entities
    (.ok "invoice text") (.error "bad json") hnd).1⟩

theorem calculate_confidence_score_bounds (spec : ExtractorSpec)
    (ents : List (String × PyVal)) :
    0 ≤ calculate_confidence_score spec ents ∧
      calculate_confidence_score spec ents ≤ 1 := by
  unfold calculate_confidence_score
  by_cases h : spec.rule_based_fields.length + spec.llm_based_fields.length = 0
  · rw [if_pos h]
    exact ⟨le_refl 0, zero_le_one⟩
  · rw [if_neg h]
    have hpos : (0 : ℚ) <
        ((spec.rule_based_fields.length + spec.llm_based_fields.length : ℕ) : ℚ) := by
      exact_mod_cast Nat.pos_of_ne_zero h
    constructor
    · exact div_nonneg (by positivity) (le_of_lt hpos)
    · rw [div_le_one hpos]
      have hle : ((spec.rule_based_fields ++ spec.llm_based_fields).filter
            (presentNonNull ents)).length ≤
          spec.rule_based_fields.length + spec.llm_based_fields.length := by
        rw [← List.length_append]
        exact List.length_filter_le _ _
      exact_mod_cast hle

theorem validate_metadata_create_nil (spec : ExtractorSpec) :
    validate_metadata (create_metadata spec []) = .ok [] := by
  show Except.ok
      (if calculate_confidence_score spec [] < 0 ∨
          1 < calculate_confidence_score spec [] then
        ["Confidence score must be between 0 and 1"]
      else []) = Except.ok ([] : List String)
  rw [if_neg]
  rintro (h0 | h1)
  · exact absurd h0 (not_lt.mpr (calculate_confidence_score_bounds spec []).1)
  · exact absurd h1 (not_lt.mpr (calculate_confidence_score_bounds spec []).2)

theorem extract_llm_entities_error (rule_based_results : List (String × PyVal))
    (err : String) :
    extract_llm_entities rule_based_results (.error err) = rule_based_results := rfl

theorem extract_model_failure (spec : ExtractorSpec)
    (ruleFn : String → List (String × PyVal)) (text err : String)
    (hrule : ruleFn text = []) :
    extract spec ruleFn (.ok text) (.error err) =
      { metadata := create_metadata spec []
        extraction_method := "hybrid_entity_extraction"
        errors := [] } := by
  unfold extract
  dsimp only
  rw [hrule, extract_llm_entities_error, validate_metadata_create_nil]

/-- C2 counterexample: a concrete extraction call whose model pass fails (the
completion call raised) returns an outcome whose `errors` sequence is empty —
the triggering error is printed, not appended — contradicting the claim that
`errors` is non-empty on every model-pass failure. -/
theorem C2_counterexample :
    (extract invoiceSpec invoice_extract_rule_based_entities
      (.ok "INVOICE 12 Total 100 USD")
      (.error "APIConnectionError: Connection error.")).errors = [] := by
  rw [extract_model_failure invoiceSpec invoice_extract_rule_based_entities
    "INVOICE 12 Total 100 USD" "APIConnectionError: Connection error." rfl]

/-- C2 (amended): for every extraction call in which the model pass fails,
`extract` returns an outcome whose fields equal the rule pass's results alone
and never raises past the call boundary (the embedded `extract` is total);
however the triggering error is swallowed (printed to stdout) rather than
appended to the outcome, so for the three concrete extractors — whose rule
pass is empty and whose resulting metadata passes validation — the outcome's
`errors` sequence is empty. -/
theorem C2_model_failure_falls_back (text err : String) :
    ((extract invoiceSpec invoice_extract_rule_based_entities
          (.ok text) (.error err)).metadata.additional_fields =
        invoice_extract_rule_based_entities text
      ∧ (extract invoiceSpec invoice_extract_rule_based_entities
          (.ok text) (.error err)).errors = [])
    ∧ ((extract contractSpec contract_extract_rule_based_entities
          (.ok text) (.error err)).metadata.additional_fields =
        contract_extract_rule_based_entities text
      ∧ (extract contractSpec contract_extract_rule_based_entities
          (.ok text) (.error err)).errors = [])
    ∧ ((extract reportSpec report_extract_rule_based_entities
          (.ok text) (.error err)).metadata.additional_fields =
        report_extract_rule_based_entities text
      ∧ (extract reportSpec report_extract_rule_based_entities
          (.ok text) (.error err)).errors = []) := by
  rw [extract_model_failure invoiceSpec invoice_extract_rule_based_entities text err rfl,
    extract_model_failure contractSpec contract_extract_rule_based_entities text err rfl,
    extract_model_failure reportSpec report_extract_rule_based_entities text err rfl]
  exact ⟨⟨rfl, rfl⟩, ⟨rfl, rfl⟩, ⟨rfl, rfl⟩⟩

/-- C4: when the model pass returns a successfully parsed JSON object, the
merged fields equal `{**rule_results, **parsed}`; every key the model pass
emits — including keys mapped to explicit null — takes precedence over the
rule pass's value, and a rule-pass value is retained exactly for the keys the
model pass does not emit. -/
theorem C4_model_pass_precedence (rule_based_results parsed : List (String × PyVal))
    (hp : keysNodup parsed) :
    extract_llm_entities rule_based_results (.ok parsed) =
        pyMerge rule_based_results parsed
      ∧ (∀ (k : String) (v : PyVal), dlookup parsed k = some v →
          dlookup (extract_llm_entities rule_based_results (.ok parsed)) k = some v)
      ∧ (∀ k : String, dlookup parsed k = Option.none →
          dlookup (extract_llm_entities rule_based_results (.ok parsed)) k =
            dlookup rule_based_results k) := by
  refine ⟨rfl, ?_, ?_⟩
  · intro k v hk
    have h := dlookup_pyMerge parsed rule_based_results k hp
    rw [hk] at h
    show dlookup (pyMerge rule_based_results parsed) k = some v
    exact h
  · intro k hk
    have h := dlookup_pyMerge parsed rule_based_results k hp
    rw [hk] at h
    show dlookup (pyMerge rule_based_results parsed) k =
      dlookup rule_based_results k
    exact h

theorem C4_witness :
    keysNodup [("total_amount", PyVal.none)] ∧
      dlookup [("total_amount", PyVal.none)] "total_amount" = some PyVal.none ∧
      dlookup (extract_llm_entities
        [("total_amount", PyVal.num 100), ("currency", PyVal.str "USD")]
        (.ok [("total_amount", PyVal.none)])) "total_amount" = some PyVal.none := by
  have hp : keysNodup [("total_amount", PyVal.none)] := by
    unfold keysNodup
    simp
  have hk : dlookup [("total_amount", PyVal.none)] "total_amount" = some PyVal.none := by
    rw [dlookup_cons, if_pos rfl]
  exact ⟨hp, hk, (C4_model_pass_precedence
    [("total_amount", PyVal.num 100), ("currency", PyVal.str "USD")]
    [("total_amount", PyVal.none)] hp).2.1 "total_amount" PyVal.none hk⟩

/-- C9: the rule-based pass of each of the three concrete extractors returns
the empty map for every input text; consequently the merged fields of a
successful model pass are exactly what the model pass emits, and on a
model-pass failure the outcome's fields are empty. -/
theorem C9_rule_pass_always_empty (text err : String)
    (parsed : List (String × PyVal)) (hp : keysNodup parsed) :
    invoice_extract_rule_based_entities text = []
      ∧ contract_extract_rule_based_entities text = []
      ∧ report_extract_rule_based_entities text = []
      ∧ extract_llm_entities (invoice_extract_rule_based_entities text) (.ok parsed) = parsed
      ∧ extract_llm_entities (contract_extract_rule_based_entities text) (.ok parsed) = parsed
      ∧ extract_llm_entities (report_extract_rule_based_entities text) (.ok parsed) = parsed
      ∧ (extract invoiceSpec invoice_extract_rule_based_entities
          (.ok text) (.error err)).metadata.additional_fields = []
      ∧ (extract contractSpec contract_extract_rule_based_entities
          (.ok text) (.error err)).metadata.additional_fields = []
      ∧ (extract reportSpec report_extract_rule_based_entities
          (.ok text) (.error err)).metadata.additional_fields = [] := by
  rw [extract_model_failure invoiceSpec invoice_extract_rule_based_entities text err rfl,
    extract_model_failure contractSpec contract_extract_rule_based_entities text err rfl,
    extract_model_failure reportSpec report_extract_rule_based_entities text err rfl]
  refine ⟨rfl, rfl, rfl, ?_, ?_, ?_, rfl, rfl, rfl⟩ <;>
    exact pyMerge_nil_left parsed hp

theorem C9_witness :
    keysNodup [("line_items", PyVal.list [PyVal.str "a"])] ∧
      extract_llm_entities (invoice_extract_rule_based_entities "some text")
        (.ok [("line_items", PyVal.list [PyVal.str "a"])]) =
        [("line_items", PyVal.list [PyVal.str "a"])] := by
  have hp : keysNodup [("line_items", PyVal.list [PyVal.str "a"])] := by
    unfold keysNodup
    simp
  exact ⟨hp, (C9_rule_pass_always_empty "some text" "e"
    [("line_items", PyVal.list [PyVal.str "a"])] hp).2.2.2.1⟩

/-- C7: the extractor factory maps `INVOICE` to the invoice extractor,
`CONTRACT` to the contract extractor and `EARNINGS_REPORT` (the Report
category) to the report extractor; `UNKNOWN` raises an unsupported-category
`ValueError`, and the factory never returns an extractor for `UNKNOWN`. -/
theorem C7_factory_dispatch :
    create_extractor DocumentType.INVOICE = .ok ExtractorChoice.invoice
      ∧ create_extractor DocumentType.CONTRACT = .ok ExtractorChoice.contract
      ∧ create_extractor DocumentType.EARNINGS_REPORT = .ok ExtractorChoice.report
      ∧ create_extractor DocumentType.UNKNOWN =
          .error "Unsupported document type: DocumentType.UNKNOWN"
      ∧ ∀ (dt : DocumentType) (c : ExtractorChoice),
          create_extractor dt = .ok c → dt ≠ DocumentType.UNKNOWN := by
  refine ⟨rfl, rfl, rfl, rfl, ?_⟩
  intro dt c h hdt
  subst hdt
  cases h

theorem C7_witness :
    create_extractor DocumentType.INVOICE = .ok ExtractorChoice.invoice ∧
      DocumentType.INVOICE ≠ DocumentType.UNKNOWN :=
  ⟨C7_factory_dispatch.1,
   C7_factory_dispatch.2.2.2.2 DocumentType.INVOICE ExtractorChoice.invoice rfl⟩

theorem analyzeBatchAux_length (env : AnalyzerEnv) (n : Nat) (paths : List String) :
    (analyzeBatchAux env n paths).length = paths.length := by
  induction paths generalizing n with
  | nil => rfl
  | cons p ps ih =>
    show (batchSlot env n p :: analyzeBatchAux env (n + 1) ps).length = _
    rw [List.length_cons, ih (n + 1), List.length_cons]

theorem analyzeBatchAux_get? (env : AnalyzerEnv) (n : Nat) (paths : List String) (i : Nat) :
    (analyzeBatchAux env n paths).get? i =
      (paths.get? i).map (fun p => batchSlot env (n + i) p) := by
  induction paths generalizing n i with
  | nil => cases i <;> rfl
  | cons p ps ih =>
    cases i with
    | zero => rfl
    | succ j =>
      show (analyzeBatchAux env (n + 1) ps).get? j = _
      rw [ih (n + 1) j, show n + 1 + j = n + (j + 1) by omega]
      rfl

/-- C5: `analyze_batch` returns one slot per input path, in order; the slot
at index `i` is the analysis result when `analyze` succeeds on that path, and
when `analyze` raises (classification error, missing file, ...) it is the
error record holding a fresh id, the file name, the exception text, a null
`classification` and empty `metadata` fields; later documents are unaffected
(each slot depends only on its own path) and the embedded `analyze_batch` is
total, so no exception propagates out of the batch call. -/
theorem C5_batch_slots_and_isolation (env : AnalyzerEnv) (paths : List String)
    (i : Nat) (p : String) (hp : paths.get? i = some p) :
    (analyze_batch env paths).length = paths.length
      ∧ (analyze_batch env paths).get? i = some (batchSlot env i p)
      ∧ (∀ r, analyze env (env.genId i) p = .ok r → batchSlot env i p = .ok r)
      ∧ (∀ e, analyze env (env.genId i) p = .error e →
          batchSlot env i p = .err (env.genErrId i) (pathName p) e Option.none []) := by
  refine ⟨analyzeBatchAux_length env 0 paths, ?_, ?_, ?_⟩
  · show (analyzeBatchAux env 0 paths).get? i = _
    rw [analyzeBatchAux_get? env 0 paths i, hp, Option.map_some', Nat.zero_add]
  · intro r hr
    unfold batchSlot
    rw [hr]
  · intro e he
    unfold batchSlot
    rw [he]

/-- A concrete classification outcome used to instantiate the analyzer
environment in witnesses. -/
def sampleClassification : ClassificationResult :=
  { document_type := .INVOICE
    confidence_score := [("Contract", 0), ("Invoice", 9 / 10), ("Financial", 0), ("Unknown", 0)]
    raw_response := "Invoice" }

/-- A concrete analyzer environment: every file except `missing.pdf` exists,
classification always yields `sampleClassification`, the PDF text and the
model pass are fixed. -/
def sampleEnv : AnalyzerEnv :=
  { fileExists := fun p => p != "missing.pdf"
    classify := fun _ => .ok sampleClassification
    pdfText := fun _ => .ok "INVOICE 12"
    modelPass := fun _ => .ok []
    genId := fun n => "uuid-" ++ toString n
    genErrId := fun n => "erruuid-" ++ toString n }

theorem C5_witness :
    (["good.pdf", "missing.pdf"].get? 1 = some "missing.pdf")
      ∧ (analyze_batch sampleEnv ["good.pdf", "missing.pdf"]).length = 2
      ∧ (analyze_batch sampleEnv ["good.pdf", "missing.pdf"]).get? 1 =
          some (batchSlot sampleEnv 1 "missing.pdf") := by
  have h := C5_batch_slots_and_isolation sampleEnv ["good.pdf", "missing.pdf"] 1
    "missing.pdf" rfl
  exact ⟨rfl, h.1, h.2.1⟩

theorem store_analysis_record_lookup (st : StoreState) (r : List (String × PyVal))
    (docId : Option String) (freshId now : String) :
    dlookup (store_analysis st r docId freshId now).2.1 "document_id" =
        some (PyVal.str (store_analysis st r docId freshId now).1)
      ∧ dlookup (store_analysis st r docId freshId now).2.1 "stored_at" =
          some (PyVal.str now)
      ∧ ∀ k : String, k ≠ "document_id" → k ≠ "stored_at" →
          dlookup (store_analysis st r docId freshId now).2.1 k = dlookup r k := by
  refine ⟨?_, ?_, ?_⟩
  · show dlookup (dictInsert (dictInsert r "document_id"
        (PyVal.str (docId.getD freshId))) "stored_at" (PyVal.str now)) "document_id" = _
    rw [dlookup_dictInsert, if_neg (by decide : ¬ ("stored_at" : String) = "document_id"),
      dlookup_dictInsert, if_pos rfl]
    rfl
  · show dlookup (dictInsert (dictInsert r "document_id"
        (PyVal.str (docId.getD freshId))) "stored_at" (PyVal.str now)) "stored_at" = _
    rw [dlookup_dictInsert, if_pos rfl]
  · intro k hk1 hk2
    show dlookup (dictInsert (dictInsert r "document_id"
        (PyVal.str (docId.getD freshId))) "stored_at" (PyVal.str now)) k = _
    rw [dlookup_dictInsert, if_neg (fun h => hk2 h.symm),
      dlookup_dictInsert, if_neg (fun h => hk1 h.symm)]

/-- C8 counterexample: a record that already carries a `document_id` field is
stored with no caller-supplied identifier; the read-back record differs from
the original on the `document_id` field — a field other than `stored_at` —
so the round-trip claim as stated fails. -/
theorem C8_counterexample :
    (store_analysis emptyStore [("document_id", PyVal.str "old"), ("x", PyVal.num 1)]
        Option.none "new-uuid" "2026-10-12T00:00:00").1 = "new-uuid"
      ∧ get_analysis
          (store_analysis emptyStore [("document_id", PyVal.str "old"), ("x", PyVal.num 1)]
            Option.none "new-uuid" "2026-10-12T00:00:00").2.2 "new-uuid" =
          some [("document_id", PyVal.str "new-uuid"), ("x", PyVal.num 1),
            ("stored_at", PyVal.str "2026-10-12T00:00:00")]
      ∧ dlookup [("document_id", PyVal.str "old"), ("x", PyVal.num 1)] "document_id" =
          some (PyVal.str "old")
      ∧ ("document_id" : String) ≠ "stored_at" :=
  ⟨rfl, rfl, rfl, by decide⟩

/-- C8 (amended): reading back the identifier returned by `put` yields
exactly the record `put` wrote; that record equals the input record on every
field other than `stored_at` and `document_id`, `stored_at` is stamped at
write time with the store's clock reading (overwriting any caller-supplied
value), `document_id` is stamped with the identifier `put` returns, and `put`
generates a fresh identifier exactly when the caller supplies none. -/
theorem C8_roundtrip_modulo_stamps (st : StoreState) (r : List (String × PyVal))
    (docId : Option String) (freshId now : String) :
    get_analysis (store_analysis st r docId freshId now).2.2
        (store_analysis st r docId freshId now).1 =
      some (store_analysis st r docId freshId now).2.1
      ∧ (∀ k : String, k ≠ "document_id" → k ≠ "stored_at" →
          dlookup (store_analysis st r docId freshId now).2.1 k = dlookup r k)
      ∧ dlookup (store_analysis st r docId freshId now).2.1 "stored_at" =
          some (PyVal.str now)
      ∧ dlookup (store_analysis st r docId freshId now).2.1 "document_id" =
          some (PyVal.str (store_analysis st r docId freshId now).1)
      ∧ (docId = Option.none → (store_analysis st r docId freshId now).1 = freshId)
      ∧ (∀ s, docId = some s → (store_analysis st r docId freshId now).1 = s) := by
  obtain ⟨h1, h2, h3⟩ := store_analysis_record_lookup st r docId freshId now
  refine ⟨?_, h3, h2, h1, ?_, ?_⟩
  · show dlookup (dictInsert st.entries (docId.getD freshId) _) (docId.getD freshId) =
      some _
    rw [dlookup_dictInsert, if_pos rfl]
    rfl
  · intro h
    rw [show (store_analysis st r docId freshId now).1 = docId.getD freshId from rfl, h]
    rfl
  · intro s h
    rw [show (store_analysis st r docId freshId now).1 = docId.getD freshId from rfl, h]
    rfl

theorem C8_witness :
    ("filename" : String) ≠ "document_id" ∧ ("filename" : String) ≠ "stored_at" ∧
      dlookup (store_analysis emptyStore [("filename", PyVal.str "a.pdf")]
          Option.none "id1" "2026-10-12T00:00:00").2.1 "filename" =
        dlookup [("filename", PyVal.str "a.pdf")] "filename" :=
  ⟨by decide, by decide,
   (C8_roundtrip_modulo_stamps emptyStore [("filename", PyVal.str "a.pdf")]
      Option.none "id1" "2026-10-12T00:00:00").2.1 "filename" (by decide) (by decide)⟩

/-- C10: `store_analysis` mutates the caller-supplied record in place: after
the call, the caller's record (the post-call value of the argument, returned
by the embedding) holds the identifier the store assigned under
`document_id` and the server-stamped `stored_at`, every other key is
unchanged, and the record stored under the returned identifier is that very
record. -/
theorem C10_put_mutates_record_in_place (st : StoreState) (r : List (String × PyVal))
    (docId : Option String) (freshId now : String) :
    dlookup (store_analysis st r docId freshId now).2.1 "document_id" =
        some (PyVal.str (store_analysis st r docId freshId now).1)
      ∧ dlookup (store_analysis st r docId freshId now).2.1 "stored_at" =
          some (PyVal.str now)
      ∧ (∀ k : String, k ≠ "document_id" → k ≠ "stored_at" →
          dlookup (store_analysis st r docId freshId now).2.1 k = dlookup r k)
      ∧ dlookup (store_analysis st r docId freshId now).2.2.entries
          (store_analysis st r docId freshId now).1 =
        some (store_analysis st r docId freshId now).2.1 := by
  obtain ⟨h1, h2, h3⟩ := store_analysis_record_lookup st r docId freshId now
  refine ⟨h1, h2, h3, ?_⟩
  show dlookup (dictInsert st.entries (docId.getD freshId) _) (docId.getD freshId) = some _
  rw [dlookup_dictInsert, if_pos rfl]
  rfl

theorem C10_witness :
    ("filename" : String) ≠ "document_id" ∧ ("filename" : String) ≠ "stored_at" ∧
      dlookup (store_analysis emptyStore
          [("filename", PyVal.str "b.pdf"), ("category", PyVal.str "invoice")]
          (some "chosen-id") "unused" "2026-10-12T01:00:00").2.1 "filename" =
        dlookup [("filename", PyVal.str "b.pdf"), ("category", PyVal.str "invoice")]
          "filename" :=
  ⟨by decide, by decide,
   (C10_put_mutates_record_in_place emptyStore
      [("filename", PyVal.str "b.pdf"), ("category", PyVal.str "invoice")]
      (some "chosen-id") "unused" "2026-10-12T01:00:00").2.2.1 "filename"
     (by decide) (by decide)⟩
